import Mathlib

set_option maxRecDepth 8000

/-!
Verification of the opponent fighter-power estimator `enemyFighterPower`
from `src/library/managers/CalculatorManager.js`.

Modelling conventions (shallow embedding of the JavaScript source):
* JS `undefined`/`null`/falsy-absent values are `Option.none`; a present
  array (even an empty one, which is truthy in JS) is `Option.some`.
* JS object maps with integer-like keys are association lists
  `List (Int × α)`; assignment `obj[k] = v` is `jsSet` (overwrite the
  existing key in place, else append), and `obj[k]` is `jsGet`.
* The local `totalPower` starts as the JS boolean `false` and is turned
  into a number by the first `+=`; it is modelled as `Option Nat` with
  `none` for `false`, and `+=` as `some (getD 0 + _)`.
* `Math.floor(Math.sqrt(c) * s)` for natural `c`, `s` equals
  `Nat.sqrt (c * (s * s))` in exact real arithmetic (see
  `powerFloor_eq_floor_sqrt` below), which is the executable form used.
* `gearMst.api_type[1]` and `api_type[2]` are modelled as the fields
  `api_type1`, `api_type2` (the only elements of the tuple that are read).
-/

namespace KC3Calc

/-- GearMaster record: the fields of a gear master-data record read by
`enemyFighterPower`: `api_type[1]`, `api_type[2]` and `api_tyku`
(anti-air stat, possibly absent). -/
structure GearMaster where
  api_type1 : Int
  api_type2 : Int
  api_tyku : Option Nat
deriving DecidableEq

/-- ShipMaster record: the fields of a ship master-data record read by
`enemyFighterPower`: `kc3_slots` (default slot gear IDs; `none` when the
field is absent or not an array) and `api_maxeq` (default per-slot
capacities, possibly absent). -/
structure ShipMaster where
  kc3_slots : Option (List Int)
  api_maxeq : Option (List Nat)
deriving DecidableEq

/-- The read-only master-data service (`KC3Master` plus the configured
`KC3GearManager.antiAirFighterType2Ids` list). -/
structure MasterData where
  isAbyssalShip : Int → Bool
  abyssalShip : Int → Option ShipMaster
  ship : Int → Option ShipMaster
  slotitem : Int → Option GearMaster
  antiAirFighterType2Ids : List Int

/-- Value stored under a gear ID key in the exception map:
`null` (gear master missing), a numeric anti-air stat (capacity missing
for an anti-air gear), or the string marker `"recon"`. -/
inductive GearExc where
  | noMaster
  | aaStat (stat : Nat)
  | recon
deriving DecidableEq

/-- Value stored under a ship ID key in the exception map: `null`
(ship master missing) or a nested gear-keyed object. -/
inductive ShipExc where
  | noMaster
  | gearMap (gears : List (Int × GearExc))
deriving DecidableEq

/-- JS object property write `obj[k] = v`: overwrite an existing key in
place, otherwise append the new key. -/
def jsSet {α : Type} (m : List (Int × α)) (k : Int) (v : α) : List (Int × α) :=
  match m with
  | [] => [(k, v)]
  | (k1, v1) :: t => if k1 = k then (k, v) :: t else (k1, v1) :: jsSet t k v

/-- JS object property read `obj[k]`: `none` for a missing key. -/
def jsGet {α : Type} (m : List (Int × α)) (k : Int) : Option α :=
  match m with
  | [] => none
  | (k1, v1) :: t => if k1 = k then some v1 else jsGet t k

/-- `exceptions[shipId] = exceptions[shipId] || {}; exceptions[shipId][gearId] = v`.
A `null` entry (ship-master missing) is falsy in JS, so it is replaced by
a fresh object before the gear key is written. -/
def setShipGear (m : List (Int × ShipExc)) (shipId gearId : Int) (v : GearExc) :
    List (Int × ShipExc) :=
  let cur : List (Int × GearExc) :=
    match jsGet m shipId with
    | some (ShipExc.gearMap gears) => gears
    | some ShipExc.noMaster => []
    | none => []
  jsSet m shipId (ShipExc.gearMap (jsSet cur gearId v))

/-- The nested object the source reads back with
`exceptions[shipId] || ` an empty fresh object. -/
def curGears (m : List (Int × ShipExc)) (shipId : Int) : List (Int × GearExc) :=
  match jsGet m shipId with
  | some (ShipExc.gearMap gears) => gears
  | some ShipExc.noMaster => []
  | none => []

/-- `KC3Master.isAbyssalShip(shipId) ? KC3Master.abyssalShip(shipId, true) : KC3Master.ship(shipId)` -/
def shipMasterLookup (env : MasterData) (shipId : Int) : Option ShipMaster :=
  if env.isAbyssalShip shipId then env.abyssalShip shipId else env.ship shipId

/-- `(enemyShipSlots || [])[shipIdx]` (and likewise for `enemySlotSizes`):
indexing an absent array, or past its end, yields `undefined`. -/
def ovAt {α : Type} (ov : Option (List (Option α))) (i : Nat) : Option α :=
  ((ov.getD []).get? i).join

/-- `let shipSlots = (enemyShipSlots || [])[shipIdx] || shipMst.kc3_slots`:
an array override (even `[]`, truthy in JS) wins; otherwise the
ship-master default, which may itself be absent or not an array (`none`). -/
def slotsResolved (slotOvI : Option (List Int)) (shipMst : ShipMaster) :
    Option (List Int) :=
  slotOvI.orElse (fun _ => shipMst.kc3_slots)

/-- `((enemySlotSizes || [])[shipIdx] || shipMst.api_maxeq || [])[slotIdx]` -/
def resolveCapacity (capOvI : Option (List Nat)) (maxeq : Option (List Nat))
    (slotIdx : Nat) : Option Nat :=
  ((capOvI.orElse (fun _ => maxeq)).getD []).get? slotIdx

/-- Fuel-bounded upward search for the integer square root of `n`
starting at candidate `r`, written structurally so that it evaluates by
kernel reduction; `natSqrtGo_eq` identifies it with `Nat.sqrt`. -/
def natSqrtGo (n : Nat) : Nat → Nat → Nat
  | 0, r => r
  | fuel + 1, r => if (r + 1) * (r + 1) ≤ n then natSqrtGo n fuel (r + 1) else r

/-- Integer square root, `Nat.sqrt` in a kernel-evaluable form. -/
def natSqrtIter (n : Nat) : Nat :=
  natSqrtGo n n 0

/-- `Math.floor(Math.sqrt(capacity) * aaStat)` computed exactly on
naturals: the real number `sqrt capacity * aaStat` equals
`sqrt (capacity * aaStat^2)`, whose floor is the integer square root
(see `powerFloor_eq_floor_sqrt`). -/
def powerFloor (capacity aaStat : Nat) : Nat :=
  natSqrtIter (capacity * (aaStat * aaStat))

/-- The accumulator state: the mutable locals of `enemyFighterPower`
(`totalPower` is `false` until the first numeric `+=`). -/
structure FighterPowerState where
  totalPower : Option Nat
  totalCapacity : Nat
  noAirPowerCapacity : Nat
  reconCapacity : Nat
  exceptions : List (Int × ShipExc)
deriving DecidableEq

/-- Lines 135-139: `totalPower = false`, the three capacity sums `0`, and
an empty exceptions object. -/
def initState : FighterPowerState :=
  { totalPower := none
    totalCapacity := 0
    noAirPowerCapacity := 0
    reconCapacity := 0
    exceptions := [] }

/-- The short 3-element return carries the exception object
`{ship: null}`; `shipNull` encodes its single entry (string key `"ship"`,
value `null`). -/
inductive ShortExc where
  | shipNull
deriving DecidableEq

/-- Result of `enemyFighterPower`: either the short 3-element tuple
(absent `shipIds`) or the full 5-element tuple. -/
inductive EFPResult where
  | short (totalPower : Option Nat) (totalCapacity : Nat) (exceptions : List ShortExc)
  | full (state : FighterPowerState)
deriving DecidableEq

/-- Body of the gear loop (lines 166-199) for the gear `gearId` found at
index `slotIdx` of the placeholder-filtered slot list of ship `shipId`. -/
def processGear (env : MasterData) (shipId : Int) (shipMst : ShipMaster)
    (capOvI : Option (List Nat)) (slotIdx : Nat) (gearId : Int)
    (st : FighterPowerState) : FighterPowerState :=
  match env.slotitem gearId with
  | none =>
      { st with exceptions := setShipGear st.exceptions shipId gearId GearExc.noMaster }
  | some gearMst =>
      if env.antiAirFighterType2Ids.contains gearMst.api_type2 then
        let aaStat := gearMst.api_tyku.getD 0
        match resolveCapacity capOvI shipMst.api_maxeq slotIdx with
        | some capacity =>
            if aaStat > 0 then
              { st with
                totalCapacity := st.totalCapacity + capacity
                totalPower := some (st.totalPower.getD 0 + powerFloor capacity aaStat) }
            else
              { st with noAirPowerCapacity := st.noAirPowerCapacity + capacity }
        | none =>
            { st with exceptions := setShipGear st.exceptions shipId gearId (GearExc.aaStat aaStat) }
      else if gearMst.api_type1 = 7 then
        match resolveCapacity capOvI shipMst.api_maxeq slotIdx with
        | some capacity =>
            { st with reconCapacity := st.reconCapacity + capacity }
        | none =>
            { st with exceptions := setShipGear st.exceptions shipId gearId GearExc.recon }
      else st

/-- The `for(let slotIdx = 0; ...)` loop over the filtered slot list. -/
def processSlots (env : MasterData) (shipId : Int) (shipMst : ShipMaster)
    (capOvI : Option (List Nat)) : List Int → Nat → FighterPowerState → FighterPowerState
  | [], _, st => st
  | gearId :: rest, slotIdx, st =>
      processSlots env shipId shipMst capOvI rest (slotIdx + 1)
        (processGear env shipId shipMst capOvI slotIdx gearId st)

/-- Body of the `$.each(enemyFleetShips, ...)` callback (lines 145-201)
for one ship, given its per-index overrides. -/
def processShip (env : MasterData) (slotOvI : Option (List Int))
    (capOvI : Option (List Nat)) (shipId : Int) (st : FighterPowerState) :
    FighterPowerState :=
  if shipId = 0 ∨ shipId < 0 then st
  else
    match shipMasterLookup env shipId with
    | none => { st with exceptions := jsSet st.exceptions shipId ShipExc.noMaster }
    | some shipMst =>
        match slotsResolved slotOvI shipMst with
        | none => { st with exceptions := jsSet st.exceptions shipId (ShipExc.gearMap []) }
        | some shipSlots =>
            processSlots env shipId shipMst capOvI
              (shipSlots.filter (fun id => decide (id > 0))) 0 st

/-- The `$.each` iteration over `enemyFleetShips` with ascending index. -/
def processShips (env : MasterData) (enemyShipSlots : Option (List (Option (List Int))))
    (enemySlotSizes : Option (List (Option (List Nat)))) :
    List Int → Nat → FighterPowerState → FighterPowerState
  | [], _, st => st
  | shipId :: rest, shipIdx, st =>
      processShips env enemyShipSlots enemySlotSizes rest (shipIdx + 1)
        (processShip env (ovAt enemyShipSlots shipIdx) (ovAt enemySlotSizes shipIdx) shipId st)

/-- The full-result state produced when `enemyFleetShips` is present. -/
def enemyFighterPowerState (env : MasterData) (enemyFleetShips : List Int)
    (enemyShipSlots : Option (List (Option (List Int))))
    (enemySlotSizes : Option (List (Option (List Nat)))) : FighterPowerState :=
  processShips env enemyShipSlots enemySlotSizes enemyFleetShips 0 initState

/-- `enemyFighterPower(enemyFleetShips, enemyShipSlots, enemySlotSizes)`
(lines 134-203). A falsy `enemyFleetShips` (JS `null`/`undefined`,
modelled `none`) takes the early 3-element return with exception
`{ship: null}`; note an empty array is truthy in JS and takes the full
path. -/
def enemyFighterPower (env : MasterData) (enemyFleetShips : Option (List Int))
    (enemyShipSlots : Option (List (Option (List Int))))
    (enemySlotSizes : Option (List (Option (List Nat)))) : EFPResult :=
  match enemyFleetShips with
  | none => EFPResult.short none 0 [ShortExc.shipNull]
  | some ships =>
      EFPResult.full (enemyFighterPowerState env ships enemyShipSlots enemySlotSizes)

/-- The ship IDs the `$.each` loop does not skip: not falsy, not negative. -/
def positiveIds (l : List Int) : List Int :=
  l.filter (fun id => decide (id > 0))

/-- The exception value (if any) that processing one gear records: `null`
when the gear master is missing, the numeric anti-air stat when an
anti-air-fighter gear has unresolvable capacity, `"recon"` when a
reconnaissance gear has unresolvable capacity; `none` when the gear is
processed without failure. -/
def gearExcValue (env : MasterData) (shipMst : ShipMaster) (capOvI : Option (List Nat))
    (slotIdx : Nat) (gearId : Int) : Option GearExc :=
  match env.slotitem gearId with
  | none => some GearExc.noMaster
  | some gearMst =>
      if env.antiAirFighterType2Ids.contains gearMst.api_type2 then
        match resolveCapacity capOvI shipMst.api_maxeq slotIdx with
        | some _ => none
        | none => some (GearExc.aaStat (gearMst.api_tyku.getD 0))
      else if gearMst.api_type1 = 7 then
        match resolveCapacity capOvI shipMst.api_maxeq slotIdx with
        | some _ => none
        | none => some GearExc.recon
      else none

/-- What a recorded gear-level exception value means, case by case, as the
claim states it: `null` iff the gear master is missing; a numeric stat iff
the gear is anti-air-fighter-classified with that stat and unresolvable
capacity; `"recon"` iff the gear is reconnaissance-classified (and not
anti-air) with unresolvable capacity. -/
def gearFailDescr (env : MasterData) (shipMst : ShipMaster) (capOvI : Option (List Nat))
    (slotIdx : Nat) (gearId : Int) (v : GearExc) : Prop :=
  match v with
  | GearExc.noMaster => env.slotitem gearId = none
  | GearExc.aaStat s =>
      ∃ gearMst, env.slotitem gearId = some gearMst ∧
        env.antiAirFighterType2Ids.contains gearMst.api_type2 = true ∧
        gearMst.api_tyku.getD 0 = s ∧
        resolveCapacity capOvI shipMst.api_maxeq slotIdx = none
  | GearExc.recon =>
      ∃ gearMst, env.slotitem gearId = some gearMst ∧
        env.antiAirFighterType2Ids.contains gearMst.api_type2 = false ∧
        gearMst.api_type1 = 7 ∧
        resolveCapacity capOvI shipMst.api_maxeq slotIdx = none

/-- Accumulation of the per-gear exception entries of a single ship, in
slot order, with JS-object overwrite semantics for a repeated gear ID. -/
def gearExcFold (env : MasterData) (shipMst : ShipMaster) (capOvI : Option (List Nat)) :
    List Int → Nat → List (Int × GearExc) → List (Int × GearExc)
  | [], _, m => m
  | gearId :: rest, slotIdx, m =>
      gearExcFold env shipMst capOvI rest (slotIdx + 1)
        (match gearExcValue env shipMst capOvI slotIdx gearId with
         | some v => jsSet m gearId v
         | none => m)

/-- The exception-map entry that processing a single ship (with its
per-index overrides) leaves under that ship's key, assuming no other
fleet entry shares the key. -/
def shipExcOf (env : MasterData) (slotOvI : Option (List Int))
    (capOvI : Option (List Nat)) (shipId : Int) : Option ShipExc :=
  if shipId = 0 ∨ shipId < 0 then none
  else
    match shipMasterLookup env shipId with
    | none => some ShipExc.noMaster
    | some shipMst =>
        match slotsResolved slotOvI shipMst with
        | none => some (ShipExc.gearMap [])
        | some shipSlots =>
            if gearExcFold env shipMst capOvI
                (shipSlots.filter (fun id => decide (id > 0))) 0 [] = [] then none
            else some (ShipExc.gearMap (gearExcFold env shipMst capOvI
                (shipSlots.filter (fun id => decide (id > 0))) 0 []))

/-- Soundness description of a ship-level exception entry: `null` only for
a ship with missing master data; an empty nested map only for a resolvable
ship whose slot layout is not a proper sequence; a non-empty nested map
only when every entry records a genuine per-gear failure of a gear
actually present (at some index of the placeholder-filtered slot list). -/
def shipExcSound (env : MasterData) (slotOvI : Option (List Int))
    (capOvI : Option (List Nat)) (shipId : Int) (e : ShipExc) : Prop :=
  match e with
  | ShipExc.noMaster => shipMasterLookup env shipId = none
  | ShipExc.gearMap ge =>
      ∃ shipMst, shipMasterLookup env shipId = some shipMst ∧
        ((ge = [] ∧ slotsResolved slotOvI shipMst = none) ∨
         (∃ shipSlots, slotsResolved slotOvI shipMst = some shipSlots ∧ ge ≠ [] ∧
            ∀ p ∈ ge, ∃ slotIdx,
              (shipSlots.filter (fun id => decide (id > 0))).get? slotIdx = some p.1 ∧
              gearFailDescr env shipMst capOvI slotIdx p.1 p.2))

/-- Completeness description for one processed ship: every failure leaves
its prescribed entry in the final map `exc`, and a ship all of whose data
resolves leaves no entry. -/
def shipExcComplete (env : MasterData) (slotOvI : Option (List Int))
    (capOvI : Option (List Nat)) (shipId : Int) (exc : List (Int × ShipExc)) : Prop :=
  (shipMasterLookup env shipId = none → jsGet exc shipId = some ShipExc.noMaster)
  ∧ (∀ shipMst, shipMasterLookup env shipId = some shipMst →
       slotsResolved slotOvI shipMst = none →
       jsGet exc shipId = some (ShipExc.gearMap []))
  ∧ (∀ shipMst shipSlots, shipMasterLookup env shipId = some shipMst →
       slotsResolved slotOvI shipMst = some shipSlots →
       (∀ slotIdx gearId,
          (shipSlots.filter (fun id => decide (id > 0))).get? slotIdx = some gearId →
          gearExcValue env shipMst capOvI slotIdx gearId = none) →
       jsGet exc shipId = none)
  ∧ (∀ shipMst shipSlots slotIdx gearId v, shipMasterLookup env shipId = some shipMst →
       slotsResolved slotOvI shipMst = some shipSlots →
       (shipSlots.filter (fun id => decide (id > 0))).get? slotIdx = some gearId →
       gearExcValue env shipMst capOvI slotIdx gearId = some v →
       ∃ ge w, jsGet exc shipId = some (ShipExc.gearMap ge) ∧ jsGet ge gearId = some w ∧
         ∃ slotIdx2,
           (shipSlots.filter (fun id => decide (id > 0))).get? slotIdx2 = some gearId ∧
           gearFailDescr env shipMst capOvI slotIdx2 gearId w)

/-- The four numeric totals of the full-result state, in tuple order. -/
def stateTotals (st : FighterPowerState) : Option Nat × Nat × Nat × Nat :=
  (st.totalPower, st.totalCapacity, st.noAirPowerCapacity, st.reconCapacity)

/-- The four numeric totals of a result (a short result never accumulated
into the last two sums). -/
def resultTotals : EFPResult → Option Nat × Nat × Nat × Nat
  | EFPResult.short tp tc _ => (tp, tc, 0, 0)
  | EFPResult.full st => stateTotals st

/-- `totalPower += p` semantics lifted to a combination of two
`totalPower` values (`none` is the untouched `false` sentinel). -/
def optAdd (a b : Option Nat) : Option Nat :=
  match b with
  | none => a
  | some n => some (a.getD 0 + n)

/-- Pointwise combination of two totals tuples. -/
def combineTotals (a b : Option Nat × Nat × Nat × Nat) : Option Nat × Nat × Nat × Nat :=
  (optAdd a.1 b.1, a.2.1 + b.2.1, a.2.2.1 + b.2.2.1, a.2.2.2 + b.2.2.2)

/-- One fleet entry bundled with the override entries that travel with its
index: ship ID, per-ship slot gear IDs, per-ship slot capacities. -/
abbrev ShipTriple : Type := Int × Option (List Int) × Option (List Nat)

/-- `enemyFighterPower` applied to parallel arrays rebuilt from a single
list of (ship, slot-override, capacity-override) triples. -/
def enemyFighterPowerTriples (env : MasterData) (l : List ShipTriple) : EFPResult :=
  enemyFighterPower env (some (l.map (fun t => t.1)))
    (some (l.map (fun t => t.2.1))) (some (l.map (fun t => t.2.2)))

/-- The per-entry iteration for the triple form of the fleet input. -/
def processTriples (env : MasterData) : List ShipTriple → FighterPowerState → FighterPowerState
  | [], st => st
  | t :: rest, st => processTriples env rest (processShip env t.2.1 t.2.2 t.1 st)

/-- The totals contributed by a single fleet entry, processed from the
pristine initial state. -/
def tripleDelta (env : MasterData) (t : ShipTriple) : Option Nat × Nat × Nat × Nat :=
  stateTotals (processShip env t.2.1 t.2.2 t.1 initState)

/-- A master-data service with no data at all. -/
def env0 : MasterData :=
  ⟨fun _ => false, fun _ => none, fun _ => none, fun _ => none, []⟩

/-- Ship 1 of `env3`: default slots put a `-1` placeholder before gear 7;
default capacities are 9 at slot 0 and 4 at slot 1. -/
def mst3 : ShipMaster := ⟨some [-1, 7], some [9, 4]⟩

/-- Gear 7 of `env3`: an anti-air fighter (type2 code 6) with stat 10. -/
def gm3 : GearMaster := ⟨6, 6, some 10⟩

/-- Master data exposing `mst3` as ship 1 and `gm3` as gear 7, with
anti-air-fighter type2 set `[6]`. -/
def env3 : MasterData :=
  ⟨fun _ => false, fun _ => none,
   fun i => if i = 1 then some mst3 else none,
   fun g => if g = 7 then some gm3 else none, [6]⟩

/-- Ship 1 of `env4`: a single slot with gear 7 and default capacity 8. -/
def mst4 : ShipMaster := ⟨some [7], some [8]⟩

/-- Gear 7 of `env4`: an anti-air fighter with stat 5. -/
def gm4 : GearMaster := ⟨6, 6, some 5⟩

/-- Master data exposing `mst4` as ship 1 and `gm4` as gear 7. -/
def env4 : MasterData :=
  ⟨fun _ => false, fun _ => none,
   fun i => if i = 1 then some mst4 else none,
   fun g => if g = 7 then some gm4 else none, [6]⟩

/-- Ship 1 of `env6`: one slot with gear 7, default capacity 5. -/
def mst6 : ShipMaster := ⟨some [7], some [5]⟩

/-- Gear 7 of `env6`: an anti-air fighter with absent anti-air stat. -/
def gm6 : GearMaster := ⟨6, 6, none⟩

/-- Master data exposing `mst6` as ship 1 and `gm6` as gear 7. -/
def env6 : MasterData :=
  ⟨fun _ => false, fun _ => none,
   fun i => if i = 1 then some mst6 else none,
   fun g => if g = 7 then some gm6 else none, [6]⟩

/-- Ship 1 of `env10`: one slot with gear 7 and no `api_maxeq`. -/
def mst10 : ShipMaster := ⟨some [7], none⟩

/-- Gear 7 of `env10`: simultaneously anti-air-fighter-classified
(type2 code 6) and reconnaissance-classified (type1 code 7), stat 3. -/
def gm10 : GearMaster := ⟨7, 6, some 3⟩

/-- Master data exposing `mst10` as ship 1 and `gm10` as gear 7. -/
def env10 : MasterData :=
  ⟨fun _ => false, fun _ => none,
   fun i => if i = 1 then some mst10 else none,
   fun g => if g = 7 then some gm10 else none, [6]⟩

theorem jsGet_jsSet_self {α : Type} (m : List (Int × α)) (k : Int) (v : α) :
    jsGet (jsSet m k v) k = some v := by
  induction m with
  | nil => simp [jsSet, jsGet]
  | cons hd t ih =>
      obtain ⟨k1, v1⟩ := hd
      by_cases hk : k1 = k <;> simp [jsSet, jsGet, hk, ih]

theorem jsGet_jsSet_ne {α : Type} (m : List (Int × α)) (k : Int) (v : α) (k2 : Int)
    (h : k2 ≠ k) : jsGet (jsSet m k v) k2 = jsGet m k2 := by
  have hk2 : ¬ k = k2 := fun hh => h hh.symm
  induction m with
  | nil => simp only [jsSet, jsGet, if_neg hk2]
  | cons hd t ih =>
      obtain ⟨k1, v1⟩ := hd
      simp only [jsSet]
      by_cases hk : k1 = k
      · rw [if_pos hk]
        simp only [jsGet, if_neg hk2, if_neg (show ¬ k1 = k2 by rw [hk]; exact hk2)]
      · rw [if_neg hk]
        simp only [jsGet]
        by_cases hke : k1 = k2
        · rw [if_pos hke, if_pos hke]
        · rw [if_neg hke, if_neg hke]
          exact ih

theorem jsSet_ne_nil {α : Type} (m : List (Int × α)) (k : Int) (v : α) :
    jsSet m k v ≠ [] := by
  cases m with
  | nil => simp [jsSet]
  | cons hd t =>
      obtain ⟨k1, v1⟩ := hd
      by_cases hk : k1 = k <;> simp [jsSet, hk]

theorem mem_jsSet {α : Type} {m : List (Int × α)} {k : Int} {v : α} {p : Int × α}
    (h : p ∈ jsSet m k v) : p = (k, v) ∨ p ∈ m := by
  induction m with
  | nil => simpa [jsSet] using h
  | cons hd t ih =>
      obtain ⟨k1, v1⟩ := hd
      by_cases hk : k1 = k
      · simp only [jsSet, if_pos hk, List.mem_cons] at h
        rcases h with h | h
        · exact Or.inl h
        · exact Or.inr (List.mem_cons_of_mem _ h)
      · simp only [jsSet, if_neg hk, List.mem_cons] at h
        rcases h with h | h
        · exact Or.inr (by simp [h])
        · rcases ih h with h2 | h2
          · exact Or.inl h2
          · exact Or.inr (List.mem_cons_of_mem _ h2)

theorem jsGet_mem {α : Type} {m : List (Int × α)} {k : Int} {v : α}
    (h : jsGet m k = some v) : (k, v) ∈ m := by
  induction m with
  | nil => simp [jsGet] at h
  | cons hd t ih =>
      obtain ⟨k1, v1⟩ := hd
      simp only [jsGet] at h
      by_cases hk : k1 = k
      · rw [if_pos hk] at h
        injection h with h2
        subst hk
        subst h2
        exact List.mem_cons_self _ _
      · rw [if_neg hk] at h
        exact List.mem_cons_of_mem _ (ih h)

theorem setShipGear_eq (m : List (Int × ShipExc)) (shipId gearId : Int) (v : GearExc) :
    setShipGear m shipId gearId v =
      jsSet m shipId (ShipExc.gearMap (jsSet (curGears m shipId) gearId v)) := by
  unfold setShipGear curGears
  rfl

theorem jsGet_setShipGear_self (m : List (Int × ShipExc)) (shipId gearId : Int) (v : GearExc) :
    jsGet (setShipGear m shipId gearId v) shipId =
      some (ShipExc.gearMap (jsSet (curGears m shipId) gearId v)) := by
  rw [setShipGear_eq]
  exact jsGet_jsSet_self _ _ _

theorem jsGet_setShipGear_ne (m : List (Int × ShipExc)) (shipId gearId : Int) (v : GearExc)
    (k : Int) (h : k ≠ shipId) :
    jsGet (setShipGear m shipId gearId v) k = jsGet m k := by
  rw [setShipGear_eq]
  exact jsGet_jsSet_ne _ _ _ _ h

theorem natSqrtGo_eq (n fuel r : Nat) (hr : r ≤ Nat.sqrt n) :
    natSqrtGo n fuel r = min (r + fuel) (Nat.sqrt n) := by
  induction fuel generalizing r with
  | zero => simp [natSqrtGo, Nat.min_eq_left hr]
  | succ fuel ih =>
      simp only [natSqrtGo]
      by_cases h : (r + 1) * (r + 1) ≤ n
      · rw [if_pos h]
        have h2 : r + 1 ≤ Nat.sqrt n := Nat.le_sqrt.mpr h
        rw [ih (r + 1) h2]
        omega
      · rw [if_neg h]
        have h2 : ¬ (r + 1 ≤ Nat.sqrt n) := fun hc => h (Nat.le_sqrt.mp hc)
        omega

theorem natSqrtIter_eq (n : Nat) : natSqrtIter n = Nat.sqrt n := by
  rw [natSqrtIter, natSqrtGo_eq n n 0 (Nat.zero_le _)]
  have h := Nat.sqrt_le_self n
  omega

theorem powerFloor_eq_floor_sqrt (c s : Nat) :
    powerFloor c s = Nat.floor (Real.sqrt (c : ℝ) * (s : ℝ)) := by
  have h1 : ((c * (s * s) : ℕ) : ℝ) = (c : ℝ) * ((s : ℝ) * (s : ℝ)) := by
    push_cast
    ring
  have h2 : Real.sqrt ((c * (s * s) : ℕ) : ℝ) = Real.sqrt (c : ℝ) * (s : ℝ) := by
    rw [h1, Real.sqrt_mul (by positivity), Real.sqrt_mul_self (by positivity)]
  rw [powerFloor, natSqrtIter_eq, ← Real.nat_floor_real_sqrt_eq_nat_sqrt, h2]

theorem processGear_exceptions (env : MasterData) (shipId : Int) (shipMst : ShipMaster)
    (capOvI : Option (List Nat)) (slotIdx : Nat) (gearId : Int) (st : FighterPowerState) :
    (processGear env shipId shipMst capOvI slotIdx gearId st).exceptions =
      match gearExcValue env shipMst capOvI slotIdx gearId with
      | some v => setShipGear st.exceptions shipId gearId v
      | none => st.exceptions := by
  unfold processGear gearExcValue
  cases hg : env.slotitem gearId with
  | none => rfl
  | some gearMst =>
      by_cases ht : env.antiAirFighterType2Ids.contains gearMst.api_type2
      · simp only [if_pos ht]
        cases hc : resolveCapacity capOvI shipMst.api_maxeq slotIdx with
        | some c => by_cases hs : gearMst.api_tyku.getD 0 > 0 <;> simp [hs]
        | none => rfl
      · simp only [if_neg ht]
        by_cases h7 : gearMst.api_type1 = 7
        · simp only [if_pos h7]
          cases hc : resolveCapacity capOvI shipMst.api_maxeq slotIdx with
          | some c => rfl
          | none => rfl
        · simp only [if_neg h7]

theorem processShip_skip (env : MasterData) (slotOvI : Option (List Int))
    (capOvI : Option (List Nat)) (shipId : Int) (st : FighterPowerState)
    (h : shipId = 0 ∨ shipId < 0) :
    processShip env slotOvI capOvI shipId st = st := by
  simp [processShip, h]

theorem processShip_noMaster (env : MasterData) (slotOvI : Option (List Int))
    (capOvI : Option (List Nat)) (shipId : Int) (st : FighterPowerState)
    (hguard : ¬ (shipId = 0 ∨ shipId < 0))
    (hm : shipMasterLookup env shipId = none) :
    processShip env slotOvI capOvI shipId st =
      { st with exceptions := jsSet st.exceptions shipId ShipExc.noMaster } := by
  unfold processShip
  rw [if_neg hguard]
  simp only [hm]

theorem processShip_noSlots (env : MasterData) (slotOvI : Option (List Int))
    (capOvI : Option (List Nat)) (shipId : Int) (st : FighterPowerState)
    (shipMst : ShipMaster) (hguard : ¬ (shipId = 0 ∨ shipId < 0))
    (hm : shipMasterLookup env shipId = some shipMst)
    (hs : slotsResolved slotOvI shipMst = none) :
    processShip env slotOvI capOvI shipId st =
      { st with exceptions := jsSet st.exceptions shipId (ShipExc.gearMap []) } := by
  unfold processShip
  rw [if_neg hguard]
  simp only [hm, hs]

theorem processShip_slots (env : MasterData) (slotOvI : Option (List Int))
    (capOvI : Option (List Nat)) (shipId : Int) (st : FighterPowerState)
    (shipMst : ShipMaster) (shipSlots : List Int) (hguard : ¬ (shipId = 0 ∨ shipId < 0))
    (hm : shipMasterLookup env shipId = some shipMst)
    (hs : slotsResolved slotOvI shipMst = some shipSlots) :
    processShip env slotOvI capOvI shipId st =
      processSlots env shipId shipMst capOvI
        (shipSlots.filter (fun id => decide (id > 0))) 0 st := by
  unfold processShip
  rw [if_neg hguard]
  simp only [hm, hs]

theorem processShips_all_placeholder (env : MasterData)
    (ovS : Option (List (Option (List Int)))) (ovC : Option (List (Option (List Nat))))
    (l : List Int) (idx : Nat) (st : FighterPowerState)
    (h : ∀ id ∈ l, id = 0 ∨ id < 0) :
    processShips env ovS ovC l idx st = st := by
  induction l generalizing idx st with
  | nil => rfl
  | cons sid rest ih =>
      simp only [processShips]
      rw [processShip_skip _ _ _ _ _ (h sid (List.mem_cons_self _ _))]
      exact ih _ _ (fun id hid => h id (List.mem_cons_of_mem _ hid))

/-- C1: the claim predicts `totalPower = 0` for an all-placeholder fleet,
but the code leaves `totalPower` as the `false` sentinel (`none` in this
model), since no `+=` ever runs: at input `shipIds = [-1, -1]` the result
is the 5-element tuple with `totalPower = false`, not the number `0`. -/
theorem c1_counterexample :
    enemyFighterPower env0 (some [-1, -1]) none none = EFPResult.full initState ∧
    enemyFighterPower env0 (some [-1, -1]) none none ≠
      EFPResult.full { initState with totalPower := some 0 } := by
  constructor
  · rfl
  · decide

/-- C1 (amended): for every non-empty `shipIds` consisting only of falsy
or negative placeholder IDs, the result is the 5-element tuple
`(false, 0, 0, 0, empty map)`: the three capacity totals and the
exception map are empty, and `totalPower` is the boolean sentinel
`false`, not the number `0`. -/
theorem c1_amended (env : MasterData) (ovS : Option (List (Option (List Int))))
    (ovC : Option (List (Option (List Nat)))) (ships : List Int)
    (hne : ships ≠ []) (hph : ∀ id ∈ ships, id = 0 ∨ id < 0) :
    enemyFighterPower env (some ships) ovS ovC = EFPResult.full initState := by
  show EFPResult.full (processShips env ovS ovC ships 0 initState) = EFPResult.full initState
  rw [processShips_all_placeholder env ovS ovC ships 0 initState hph]

/-- C1 witness: the amended statement evaluated at `shipIds = [-1, -1]`. -/
theorem c1_witness :
    (([-1, -1] : List Int) ≠ []) ∧ (∀ id ∈ ([-1, -1] : List Int), id = 0 ∨ id < 0) ∧
    enemyFighterPower env0 (some [-1, -1]) none none = EFPResult.full initState :=
  ⟨by decide, by decide, c1_amended env0 none none [-1, -1] (by decide) (by decide)⟩

/-- C2: the claim predicts the short 3-element result also for an empty
`shipIds` array, but `[]` is truthy in JS, so the code takes the full
path and returns the 5-element tuple `(false, 0, 0, 0, empty map)`. -/
theorem c2_counterexample :
    enemyFighterPower env0 (some []) none none ≠
      EFPResult.short none 0 [ShortExc.shipNull] ∧
    enemyFighterPower env0 (some []) none none = EFPResult.full initState := by
  constructor
  · decide
  · rfl

/-- C2 (amended): only an absent (`null`/`undefined`) `shipIds` yields the
short 3-element result `(false, 0, the map with single key ship bound to
null)`; an empty array yields the full 5-element result
`(false, 0, 0, 0, empty map)`. -/
theorem c2_amended (env : MasterData) (ovS : Option (List (Option (List Int))))
    (ovC : Option (List (Option (List Nat)))) :
    enemyFighterPower env none ovS ovC = EFPResult.short none 0 [ShortExc.shipNull] ∧
    enemyFighterPower env (some []) ovS ovC = EFPResult.full initState :=
  ⟨rfl, rfl⟩

/-- C9: the embedding of `enemyFighterPower` is a total function: for
every master-data environment and every combination of inputs (including
all missing-data cases) it returns a well-formed result, either the full
5-element tuple or, exactly for absent `shipIds`, the short 3-element
tuple; no failure path exists. -/
theorem c9_total (env : MasterData) (fleet : Option (List Int))
    (ovS : Option (List (Option (List Int)))) (ovC : Option (List (Option (List Nat)))) :
    (∃ st, enemyFighterPower env fleet ovS ovC = EFPResult.full st) ∨
    enemyFighterPower env fleet ovS ovC = EFPResult.short none 0 [ShortExc.shipNull] := by
  cases fleet with
  | none => exact Or.inr rfl
  | some ships => exact Or.inl ⟨_, rfl⟩

/-- C3: the claim predicts the capacity is read at the gear's original
slot position, but the code indexes the capacity array with the position
in the placeholder-filtered list: for ship 1 with slots `[-1, 7]` and
default capacities `[9, 4]`, gear 7 (stat 10) gets capacity 9 (filtered
index 0), giving power 30 and capacity total 9, not capacity 4 / power 20
as the original-position reading would. -/
theorem c3_counterexample :
    enemyFighterPower env3 (some [1]) none none =
      EFPResult.full ⟨some 30, 9, 0, 0, []⟩ ∧
    enemyFighterPower env3 (some [1]) none none ≠
      EFPResult.full ⟨some 20, 4, 0, 0, []⟩ := by
  constructor
  · rfl
  · decide

/-- C3 (amended): the capacity for a gear is taken at the gear's position
in the placeholder-filtered slot sequence: nonpositive placeholder IDs
before a valid gear shift its capacity index, so dropping a placeholder
prefix from an explicit slot override changes nothing about the ship's
processing. -/
theorem c3_amended (env : MasterData) (capOvI : Option (List Nat)) (shipId : Int)
    (st : FighterPowerState) (ps rest : List Int)
    (hp : ∀ p ∈ ps, ¬ (p > 0)) :
    processShip env (some (ps ++ rest)) capOvI shipId st =
      processShip env (some rest) capOvI shipId st := by
  by_cases hguard : shipId = 0 ∨ shipId < 0
  · rw [processShip_skip _ _ _ _ _ hguard, processShip_skip _ _ _ _ _ hguard]
  · cases hm : shipMasterLookup env shipId with
    | none =>
        rw [processShip_noMaster _ _ _ _ _ hguard hm,
          processShip_noMaster _ _ _ _ _ hguard hm]
    | some shipMst =>
        have hfil : (ps ++ rest).filter (fun id => decide (id > 0)) =
            rest.filter (fun id => decide (id > 0)) := by
          rw [List.filter_append]
          have hnil : ps.filter (fun id => decide (id > 0)) = [] := by
            rw [List.filter_eq_nil_iff]
            intro a ha
            simpa using hp a ha
          rw [hnil, List.nil_append]
        rw [processShip_slots env (some (ps ++ rest)) capOvI shipId st shipMst
            (ps ++ rest) hguard hm rfl,
          processShip_slots env (some rest) capOvI shipId st shipMst rest hguard hm rfl,
          hfil]

/-- C3 witness: the amended statement evaluated with placeholder prefix
`[-1]` before gear 7 on ship 1 of `env3`. -/
theorem c3_witness :
    (∀ p ∈ ([-1] : List Int), ¬ (p > 0)) ∧
    processShip env3 (some [-1, 7]) none 1 initState =
      processShip env3 (some [7]) none 1 initState :=
  ⟨by decide, c3_amended env3 none 1 initState [-1] [7] (by decide)⟩

/-- C4: the claim predicts a fallback to the ShipMaster default capacity
when the per-ship capacity-override array is present but lacks an entry at
`slotIdx`; the code instead uses the present override array wholesale
(JS `||` falls back only when the whole entry is falsy), so a
missing-capacity exception with the stat value is recorded even though
the default `api_maxeq` has the entry 8. -/
theorem c4_counterexample :
    enemyFighterPower env4 (some [1]) none (some [some []]) =
      EFPResult.full ⟨none, 0, 0, 0, [(1, ShipExc.gearMap [(7, GearExc.aaStat 5)])]⟩ ∧
    enemyFighterPower env4 (some [1]) none (some [some []]) ≠
      EFPResult.full ⟨some 14, 8, 0, 0, []⟩ := by
  constructor
  · rfl
  · decide

/-- C4 (amended): the ShipMaster default capacities are consulted only
when the capacity-override entry for the ship is absent or falsy as a
whole; when the entry is a present array lacking a value at `slotIdx`,
the capacity is unresolvable and a missing-capacity exception recording
the gear's anti-air stat is written, regardless of the ShipMaster
defaults. -/
theorem c4_amended (env : MasterData) (shipId : Int) (shipMst : ShipMaster)
    (l : List Nat) (slotIdx : Nat) (gearId : Int) (st : FighterPowerState)
    (gearMst : GearMaster)
    (hg : env.slotitem gearId = some gearMst)
    (ht : env.antiAirFighterType2Ids.contains gearMst.api_type2 = true)
    (hl : l.get? slotIdx = none) :
    processGear env shipId shipMst (some l) slotIdx gearId st =
      { st with exceptions :=
          setShipGear st.exceptions shipId gearId (GearExc.aaStat (gearMst.api_tyku.getD 0)) } := by
  have hcap : resolveCapacity (some l) shipMst.api_maxeq slotIdx = none := by
    simp only [resolveCapacity, Option.orElse, Option.getD]
    exact hl
  unfold processGear
  simp only [hg, ht, if_true, hcap]

/-- C4 witness: the amended statement on ship 1 of `env4`, whose default
capacities are `[8]`, with present-but-empty override `[]`. -/
theorem c4_witness :
    env4.slotitem 7 = some gm4 ∧
    env4.antiAirFighterType2Ids.contains gm4.api_type2 = true ∧
    ([] : List Nat).get? 0 = none ∧
    processGear env4 1 mst4 (some []) 0 7 initState =
      { initState with exceptions := [(1, ShipExc.gearMap [(7, GearExc.aaStat 5)])] } :=
  ⟨rfl, by decide, rfl, by
    rw [c4_amended env4 1 mst4 [] 0 7 initState gm4 rfl (by decide) rfl]
    rfl⟩

/-- C5: an anti-air-fighter gear with resolvable capacity and positive
anti-air stat contributes exactly `floor(sqrt capacity * stat)` (real
square root, floor to a natural) to `totalPower` and exactly `capacity`
to `totalCapacity`, leaving the other fields unchanged. -/
theorem c5_contribution (env : MasterData) (shipId : Int) (shipMst : ShipMaster)
    (capOvI : Option (List Nat)) (slotIdx : Nat) (gearId : Int)
    (st : FighterPowerState) (gearMst : GearMaster) (capacity : Nat)
    (hg : env.slotitem gearId = some gearMst)
    (ht : env.antiAirFighterType2Ids.contains gearMst.api_type2 = true)
    (hc : resolveCapacity capOvI shipMst.api_maxeq slotIdx = some capacity)
    (hs : gearMst.api_tyku.getD 0 > 0) :
    processGear env shipId shipMst capOvI slotIdx gearId st =
      { st with
        totalCapacity := st.totalCapacity + capacity
        totalPower := some (st.totalPower.getD 0 +
          Nat.floor (Real.sqrt (capacity : ℝ) * ((gearMst.api_tyku.getD 0 : Nat) : ℝ))) } := by
  unfold processGear
  simp only [hg, ht, if_true, hc]
  rw [if_pos hs, ← powerFloor_eq_floor_sqrt]

/-- C5 witness: the spec's example, stat 10 with capacity 9, contributes
power `floor(sqrt 9 * 10) = 30` and capacity 9. -/
theorem c5_witness :
    processGear env3 1 mst3 none 0 7 initState =
      { initState with totalCapacity := 9, totalPower := some 30 } := by
  rw [c5_contribution env3 1 mst3 none 0 7 initState gm3 9 rfl (by decide) rfl (by decide)]
  have h9 : Real.sqrt ((9 : Nat) : ℝ) = 3 := by
    rw [show ((9 : Nat) : ℝ) = (3 : ℝ) ^ 2 by norm_num,
      Real.sqrt_sq (by norm_num : (0 : ℝ) ≤ 3)]
  have h30 : Nat.floor (Real.sqrt ((9 : Nat) : ℝ) * ((gm3.api_tyku.getD 0 : Nat) : ℝ)) = 30 := by
    rw [h9, show ((gm3.api_tyku.getD 0 : Nat) : ℝ) = (10 : ℝ) by norm_num [gm3],
      show (3 : ℝ) * 10 = ((30 : Nat) : ℝ) by norm_num, Nat.floor_natCast]
  rw [h30]
  rfl

/-- C6: an anti-air-fighter gear with resolvable capacity but zero or
absent anti-air stat adds its capacity to `noAirPowerCapacity` only;
`totalPower`, `totalCapacity`, `reconCapacity` and the exception map are
untouched by that gear. -/
theorem c6_noAirPower (env : MasterData) (shipId : Int) (shipMst : ShipMaster)
    (capOvI : Option (List Nat)) (slotIdx : Nat) (gearId : Int)
    (st : FighterPowerState) (gearMst : GearMaster) (capacity : Nat)
    (hg : env.slotitem gearId = some gearMst)
    (ht : env.antiAirFighterType2Ids.contains gearMst.api_type2 = true)
    (hz : gearMst.api_tyku.getD 0 = 0)
    (hc : resolveCapacity capOvI shipMst.api_maxeq slotIdx = some capacity) :
    processGear env shipId shipMst capOvI slotIdx gearId st =
      { st with noAirPowerCapacity := st.noAirPowerCapacity + capacity } := by
  unfold processGear
  simp only [hg, ht, if_true, hc]
  rw [if_neg (by rw [hz]; exact lt_irrefl 0)]

/-- C6 witness: gear 7 of `env6` (absent stat) with capacity 5 yields
`noAirPowerCapacity = 5` and everything else as in the initial state. -/
theorem c6_witness :
    processGear env6 1 mst6 none 0 7 initState =
      { initState with noAirPowerCapacity := 5 } := by
  rw [c6_noAirPower env6 1 mst6 none 0 7 initState gm6 5 rfl (by decide) rfl rfl]
  rfl

/-- C10: a gear that is simultaneously anti-air-fighter-classified
(`api_type[2]` in the configured set) and reconnaissance-classified
(`api_type[1] = 7`) is handled exclusively by the anti-air branch:
`reconCapacity` is never changed by it, and when its capacity is
unresolvable the recorded exception value is the numeric stat, not
`"recon"`. -/
theorem c10_antiAir_precedence (env : MasterData) (shipId : Int) (shipMst : ShipMaster)
    (capOvI : Option (List Nat)) (slotIdx : Nat) (gearId : Int)
    (st : FighterPowerState) (gearMst : GearMaster)
    (hg : env.slotitem gearId = some gearMst)
    (ht2 : env.antiAirFighterType2Ids.contains gearMst.api_type2 = true)
    (ht1 : gearMst.api_type1 = 7) :
    (processGear env shipId shipMst capOvI slotIdx gearId st).reconCapacity =
      st.reconCapacity ∧
    (resolveCapacity capOvI shipMst.api_maxeq slotIdx = none →
      processGear env shipId shipMst capOvI slotIdx gearId st =
        { st with exceptions :=
            setShipGear st.exceptions shipId gearId (GearExc.aaStat (gearMst.api_tyku.getD 0)) }) := by
  unfold processGear
  simp only [hg, ht2, if_true]
  constructor
  · cases hc : resolveCapacity capOvI shipMst.api_maxeq slotIdx with
    | some c => by_cases hs : gearMst.api_tyku.getD 0 > 0 <;> simp [hs]
    | none => rfl
  · intro hc
    simp only [hc]

theorem gearExcValue_descr (env : MasterData) (shipMst : ShipMaster)
    (capOvI : Option (List Nat)) (slotIdx : Nat) (gearId : Int) (v : GearExc)
    (h : gearExcValue env shipMst capOvI slotIdx gearId = some v) :
    gearFailDescr env shipMst capOvI slotIdx gearId v := by
  unfold gearExcValue at h
  cases hg : env.slotitem gearId with
  | none =>
      simp only [hg, Option.some.injEq] at h
      subst h
      exact hg
  | some gearMst =>
      simp only [hg] at h
      by_cases ht : env.antiAirFighterType2Ids.contains gearMst.api_type2 = true
      · rw [if_pos ht] at h
        cases hc : resolveCapacity capOvI shipMst.api_maxeq slotIdx with
        | some c => simp [hc] at h
        | none =>
            simp only [hc, Option.some.injEq] at h
            subst h
            exact ⟨gearMst, hg, ht, rfl, hc⟩
      · rw [if_neg ht] at h
        by_cases h7 : gearMst.api_type1 = 7
        · rw [if_pos h7] at h
          cases hc : resolveCapacity capOvI shipMst.api_maxeq slotIdx with
          | some c => simp [hc] at h
          | none =>
              simp only [hc, Option.some.injEq] at h
              subst h
              exact ⟨gearMst, hg, Bool.not_eq_true _ ▸ ht, h7, hc⟩
        · rw [if_neg h7] at h
          simp at h

theorem gearExcFold_mem (env : MasterData) (shipMst : ShipMaster)
    (capOvI : Option (List Nat)) (gl : List Int) (off : Nat)
    (m : List (Int × GearExc)) (p : Int × GearExc)
    (h : p ∈ gearExcFold env shipMst capOvI gl off m) :
    p ∈ m ∨ ∃ j, gl.get? j = some p.1 ∧
      gearExcValue env shipMst capOvI (off + j) p.1 = some p.2 := by
  induction gl generalizing off m with
  | nil => exact Or.inl (by simpa [gearExcFold] using h)
  | cons g rest ih =>
      simp only [gearExcFold] at h
      cases hv : gearExcValue env shipMst capOvI off g with
      | none =>
          simp only [hv] at h
          rcases ih _ _ h with h2 | ⟨j, hj, hval⟩
          · exact Or.inl h2
          · refine Or.inr ⟨j + 1, by simpa using hj, ?_⟩
            rw [show off + (j + 1) = off + 1 + j from by omega]
            exact hval
      | some v =>
          simp only [hv] at h
          rcases ih _ _ h with h2 | ⟨j, hj, hval⟩
          · rcases mem_jsSet h2 with h3 | h3
            · subst h3
              refine Or.inr ⟨0, by simp, ?_⟩
              simpa using hv
            · exact Or.inl h3
          · refine Or.inr ⟨j + 1, by simpa using hj, ?_⟩
            rw [show off + (j + 1) = off + 1 + j from by omega]
            exact hval

theorem gearExcFold_isSome_mono (env : MasterData) (shipMst : ShipMaster)
    (capOvI : Option (List Nat)) (gl : List Int) (off : Nat)
    (m : List (Int × GearExc)) (g : Int)
    (h : (jsGet m g).isSome) :
    (jsGet (gearExcFold env shipMst capOvI gl off m) g).isSome := by
  induction gl generalizing off m with
  | nil => simpa [gearExcFold] using h
  | cons g0 rest ih =>
      simp only [gearExcFold]
      cases hv : gearExcValue env shipMst capOvI off g0 with
      | none => exact ih _ _ h
      | some v =>
          apply ih
          by_cases hg : g = g0
          · subst hg
            rw [jsGet_jsSet_self]
            rfl
          · rw [jsGet_jsSet_ne _ _ _ _ hg]
            exact h

theorem gearExcFold_isSome (env : MasterData) (shipMst : ShipMaster)
    (capOvI : Option (List Nat)) (gl : List Int) (off jj : Nat)
    (m : List (Int × GearExc)) (g : Int) (v : GearExc)
    (hget : gl.get? jj = some g)
    (hval : gearExcValue env shipMst capOvI (off + jj) g = some v) :
    (jsGet (gearExcFold env shipMst capOvI gl off m) g).isSome := by
  induction gl generalizing off jj m with
  | nil => simp [List.get?] at hget
  | cons g0 rest ih =>
      cases jj with
      | zero =>
          rw [List.get?_cons_zero] at hget
          injection hget with h0
          subst h0
          rw [Nat.add_zero] at hval
          simp only [gearExcFold, hval]
          apply gearExcFold_isSome_mono
          rw [jsGet_jsSet_self]
          rfl
      | succ jj =>
          rw [List.get?_cons_succ] at hget
          have hval2 : gearExcValue env shipMst capOvI (off + 1 + jj) g = some v := by
            rw [show off + 1 + jj = off + (jj + 1) from by omega]
            exact hval
          simp only [gearExcFold]
          exact ih _ jj _ hget hval2

theorem gearExcFold_all_ok (env : MasterData) (shipMst : ShipMaster)
    (capOvI : Option (List Nat)) (gl : List Int) (off : Nat)
    (m : List (Int × GearExc))
    (h : ∀ jj g, gl.get? jj = some g →
      gearExcValue env shipMst capOvI (off + jj) g = none) :
    gearExcFold env shipMst capOvI gl off m = m := by
  induction gl generalizing off with
  | nil => rfl
  | cons g0 rest ih =>
      simp only [gearExcFold]
      have h0 : gearExcValue env shipMst capOvI off g0 = none := by
        have h1 := h 0 g0 (by simp)
        rwa [Nat.add_zero] at h1
      simp only [h0]
      refine ih _ (fun jj g hg => ?_)
      have h1 := h (jj + 1) g (by simpa using hg)
      rwa [show off + (jj + 1) = off + 1 + jj from by omega] at h1

theorem processSlots_exceptions_self (env : MasterData) (shipId : Int)
    (shipMst : ShipMaster) (capOvI : Option (List Nat)) (gl : List Int) (j : Nat)
    (st : FighterPowerState) (m : List (Int × GearExc))
    (h : jsGet st.exceptions shipId =
      if m = [] then none else some (ShipExc.gearMap m)) :
    jsGet (processSlots env shipId shipMst capOvI gl j st).exceptions shipId =
      (if gearExcFold env shipMst capOvI gl j m = [] then none
       else some (ShipExc.gearMap (gearExcFold env shipMst capOvI gl j m))) := by
  induction gl generalizing j st m with
  | nil => simpa [processSlots, gearExcFold] using h
  | cons g rest ih =>
      simp only [processSlots, gearExcFold]
      cases hv : gearExcValue env shipMst capOvI j g with
      | none =>
          simp only [hv]
          apply ih
          rw [processGear_exceptions]
          simp only [hv]
          exact h
      | some v =>
          simp only [hv]
          apply ih
          rw [processGear_exceptions]
          simp only [hv]
          have hcur : curGears st.exceptions shipId = m := by
            by_cases hm : m = []
            · subst hm
              unfold curGears
              rw [h, if_pos rfl]
            · unfold curGears
              rw [h, if_neg hm]
          rw [jsGet_setShipGear_self, hcur, if_neg (jsSet_ne_nil _ _ _)]

theorem processSlots_exceptions_ne (env : MasterData) (shipId : Int)
    (shipMst : ShipMaster) (capOvI : Option (List Nat)) (gl : List Int) (j : Nat)
    (st : FighterPowerState) (k : Int) (h : k ≠ shipId) :
    jsGet (processSlots env shipId shipMst capOvI gl j st).exceptions k =
      jsGet st.exceptions k := by
  induction gl generalizing j st with
  | nil => rfl
  | cons g rest ih =>
      simp only [processSlots]
      rw [ih]
      rw [processGear_exceptions]
      cases hv : gearExcValue env shipMst capOvI j g with
      | none => rfl
      | some v => exact jsGet_setShipGear_ne _ _ _ _ _ h

theorem shipExcOf_eq_noMaster (env : MasterData) (slotOvI : Option (List Int))
    (capOvI : Option (List Nat)) (shipId : Int)
    (hguard : ¬ (shipId = 0 ∨ shipId < 0))
    (hm : shipMasterLookup env shipId = none) :
    shipExcOf env slotOvI capOvI shipId = some ShipExc.noMaster := by
  unfold shipExcOf
  rw [if_neg hguard]
  simp only [hm]

theorem shipExcOf_eq_noSlots (env : MasterData) (slotOvI : Option (List Int))
    (capOvI : Option (List Nat)) (shipId : Int) (shipMst : ShipMaster)
    (hguard : ¬ (shipId = 0 ∨ shipId < 0))
    (hm : shipMasterLookup env shipId = some shipMst)
    (hsl : slotsResolved slotOvI shipMst = none) :
    shipExcOf env slotOvI capOvI shipId = some (ShipExc.gearMap []) := by
  unfold shipExcOf
  rw [if_neg hguard]
  simp only [hm, hsl]

theorem shipExcOf_eq_slots (env : MasterData) (slotOvI : Option (List Int))
    (capOvI : Option (List Nat)) (shipId : Int) (shipMst : ShipMaster)
    (shipSlots : List Int) (hguard : ¬ (shipId = 0 ∨ shipId < 0))
    (hm : shipMasterLookup env shipId = some shipMst)
    (hsl : slotsResolved slotOvI shipMst = some shipSlots) :
    shipExcOf env slotOvI capOvI shipId =
      (if gearExcFold env shipMst capOvI
          (shipSlots.filter (fun id => decide (id > 0))) 0 [] = [] then none
       else some (ShipExc.gearMap (gearExcFold env shipMst capOvI
          (shipSlots.filter (fun id => decide (id > 0))) 0 []))) := by
  unfold shipExcOf
  rw [if_neg hguard]
  simp only [hm, hsl]

theorem processShip_exceptions_self (env : MasterData) (slotOvI : Option (List Int))
    (capOvI : Option (List Nat)) (shipId : Int) (st : FighterPowerState)
    (hs : shipId > 0) (h : jsGet st.exceptions shipId = none) :
    jsGet (processShip env slotOvI capOvI shipId st).exceptions shipId =
      shipExcOf env slotOvI capOvI shipId := by
  have hguard : ¬ (shipId = 0 ∨ shipId < 0) := by omega
  cases hm : shipMasterLookup env shipId with
  | none =>
      rw [processShip_noMaster _ _ _ _ _ hguard hm,
        shipExcOf_eq_noMaster _ _ _ _ hguard hm]
      exact jsGet_jsSet_self _ _ _
  | some shipMst =>
      cases hsl : slotsResolved slotOvI shipMst with
      | none =>
          rw [processShip_noSlots _ _ _ _ _ _ hguard hm hsl,
            shipExcOf_eq_noSlots _ _ _ _ _ hguard hm hsl]
          exact jsGet_jsSet_self _ _ _
      | some slots =>
          rw [processShip_slots _ _ _ _ _ _ _ hguard hm hsl,
            shipExcOf_eq_slots _ _ _ _ _ _ hguard hm hsl]
          rw [processSlots_exceptions_self env shipId shipMst capOvI
            (slots.filter (fun id => decide (id > 0))) 0 st [] (by rw [h, if_pos rfl])]

theorem processShip_exceptions_ne (env : MasterData) (slotOvI : Option (List Int))
    (capOvI : Option (List Nat)) (shipId : Int) (st : FighterPowerState) (k : Int)
    (h : k ≠ shipId) :
    jsGet (processShip env slotOvI capOvI shipId st).exceptions k =
      jsGet st.exceptions k := by
  by_cases hguard : shipId = 0 ∨ shipId < 0
  · rw [processShip_skip _ _ _ _ _ hguard]
  · cases hm : shipMasterLookup env shipId with
    | none =>
        rw [processShip_noMaster _ _ _ _ _ hguard hm]
        exact jsGet_jsSet_ne _ _ _ _ h
    | some shipMst =>
        cases hsl : slotsResolved slotOvI shipMst with
        | none =>
            rw [processShip_noSlots _ _ _ _ _ _ hguard hm hsl]
            exact jsGet_jsSet_ne _ _ _ _ h
        | some slots =>
            rw [processShip_slots _ _ _ _ _ _ _ hguard hm hsl]
            exact processSlots_exceptions_ne _ _ _ _ _ _ _ _ h

theorem mem_positiveIds (l : List Int) (k : Int) :
    k ∈ positiveIds l ↔ k ∈ l ∧ k > 0 := by
  unfold positiveIds
  simp [List.mem_filter]

theorem positiveIds_append (a b : List Int) :
    positiveIds (a ++ b) = positiveIds a ++ positiveIds b := by
  simp [positiveIds]

theorem positiveIds_cons_pos (sid : Int) (rest : List Int) (h : sid > 0) :
    positiveIds (sid :: rest) = sid :: positiveIds rest := by
  unfold positiveIds
  rw [List.filter_cons, if_pos (by simpa using h)]

theorem processShips_exceptions_not_mem (env : MasterData)
    (ovS : Option (List (Option (List Int)))) (ovC : Option (List (Option (List Nat))))
    (ships : List Int) (idx : Nat) (st : FighterPowerState) (k : Int)
    (h : k ∉ positiveIds ships) :
    jsGet (processShips env ovS ovC ships idx st).exceptions k =
      jsGet st.exceptions k := by
  induction ships generalizing idx st with
  | nil => rfl
  | cons sid rest ih =>
      have hrest : k ∉ positiveIds rest := by
        intro hmem
        apply h
        rw [mem_positiveIds] at hmem ⊢
        exact ⟨List.mem_cons_of_mem _ hmem.1, hmem.2⟩
      simp only [processShips]
      rw [ih _ _ hrest]
      by_cases hsid : sid > 0
      · have hkne : k ≠ sid := by
          intro hk
          subst hk
          exact h ((mem_positiveIds _ _).mpr ⟨List.mem_cons_self _ _, hsid⟩)
        exact processShip_exceptions_ne _ _ _ _ _ _ hkne
      · rw [processShip_skip _ _ _ _ _ (by omega)]

theorem processShips_append (env : MasterData)
    (ovS : Option (List (Option (List Int)))) (ovC : Option (List (Option (List Nat))))
    (l1 l2 : List Int) (idx : Nat) (st : FighterPowerState) :
    processShips env ovS ovC (l1 ++ l2) idx st =
      processShips env ovS ovC l2 (idx + l1.length)
        (processShips env ovS ovC l1 idx st) := by
  induction l1 generalizing idx st with
  | nil => simp [processShips]
  | cons sid rest ih =>
      simp only [List.cons_append, processShips, List.length_cons, List.append_eq]
      rw [ih]
      rw [show idx + 1 + rest.length = idx + (rest.length + 1) from by omega]

theorem processShips_exceptions_unique (env : MasterData)
    (ovS : Option (List (Option (List Int)))) (ovC : Option (List (Option (List Nat))))
    (pre post : List Int) (sid : Int) (idx : Nat) (st : FighterPowerState)
    (hpre : sid ∉ positiveIds pre) (hpost : sid ∉ positiveIds post)
    (hs : sid > 0) (h : jsGet st.exceptions sid = none) :
    jsGet (processShips env ovS ovC (pre ++ sid :: post) idx st).exceptions sid =
      shipExcOf env (ovAt ovS (idx + pre.length)) (ovAt ovC (idx + pre.length)) sid := by
  rw [processShips_append]
  simp only [processShips]
  rw [processShips_exceptions_not_mem _ _ _ _ _ _ _ hpost]
  apply processShip_exceptions_self _ _ _ _ _ hs
  rw [processShips_exceptions_not_mem _ _ _ _ _ _ _ hpre]
  exact h

theorem shipExcOf_sound (env : MasterData) (slotOvI : Option (List Int))
    (capOvI : Option (List Nat)) (shipId : Int) (e : ShipExc)
    (h : shipExcOf env slotOvI capOvI shipId = some e) :
    shipExcSound env slotOvI capOvI shipId e := by
  by_cases hguard : shipId = 0 ∨ shipId < 0
  · unfold shipExcOf at h
    rw [if_pos hguard] at h
    exact absurd h (by simp)
  · cases hm : shipMasterLookup env shipId with
    | none =>
        rw [shipExcOf_eq_noMaster _ _ _ _ hguard hm] at h
        injection h with h2
        subst h2
        exact hm
    | some shipMst =>
        cases hsl : slotsResolved slotOvI shipMst with
        | none =>
            rw [shipExcOf_eq_noSlots _ _ _ _ _ hguard hm hsl] at h
            injection h with h2
            subst h2
            exact ⟨shipMst, hm, Or.inl ⟨rfl, hsl⟩⟩
        | some slots =>
            rw [shipExcOf_eq_slots _ _ _ _ _ _ hguard hm hsl] at h
            by_cases hge : gearExcFold env shipMst capOvI
                (slots.filter (fun id => decide (id > 0))) 0 [] = []
            · rw [if_pos hge] at h
              exact absurd h (by simp)
            · rw [if_neg hge] at h
              injection h with h2
              subst h2
              refine ⟨shipMst, hm, Or.inr ⟨slots, hsl, hge, fun p hp => ?_⟩⟩
              rcases gearExcFold_mem env shipMst capOvI _ 0 [] p hp with h3 | ⟨j, hj, hval⟩
              · exact absurd h3 (List.not_mem_nil _)
              · exact ⟨j, hj, by
                  simpa using gearExcValue_descr env shipMst capOvI (0 + j) p.1 p.2 hval⟩

theorem shipExcOf_complete (env : MasterData) (slotOvI : Option (List Int))
    (capOvI : Option (List Nat)) (shipId : Int) (exc : List (Int × ShipExc))
    (hs : shipId > 0)
    (h : jsGet exc shipId = shipExcOf env slotOvI capOvI shipId) :
    shipExcComplete env slotOvI capOvI shipId exc := by
  have hguard : ¬ (shipId = 0 ∨ shipId < 0) := by omega
  refine ⟨?_, ?_, ?_, ?_⟩
  · intro hm
    rw [h]
    exact shipExcOf_eq_noMaster _ _ _ _ hguard hm
  · intro shipMst hm hsl
    rw [h]
    exact shipExcOf_eq_noSlots _ _ _ _ _ hguard hm hsl
  · intro shipMst shipSlots hm hsl hall
    rw [h, shipExcOf_eq_slots _ _ _ _ _ _ hguard hm hsl, if_pos]
    exact gearExcFold_all_ok env shipMst capOvI _ 0 []
      (fun jj g hg => by rw [Nat.zero_add]; exact hall jj g hg)
  · intro shipMst shipSlots slotIdx gearId v hm hsl hget hval
    rw [h, shipExcOf_eq_slots _ _ _ _ _ _ hguard hm hsl]
    have hsome := gearExcFold_isSome env shipMst capOvI
      (shipSlots.filter (fun id => decide (id > 0))) 0 slotIdx [] gearId v hget
      (by rw [Nat.zero_add]; exact hval)
    have hne : gearExcFold env shipMst capOvI
        (shipSlots.filter (fun id => decide (id > 0))) 0 [] ≠ [] := by
      intro h0
      rw [h0] at hsome
      simp [jsGet] at hsome
    rw [if_neg hne]
    obtain ⟨w, hw⟩ := Option.isSome_iff_exists.mp hsome
    refine ⟨_, w, rfl, hw, ?_⟩
    have hmem := jsGet_mem hw
    rcases gearExcFold_mem env shipMst capOvI _ 0 [] (gearId, w) hmem with h3 | ⟨j, hj, hval2⟩
    · exact absurd h3 (List.not_mem_nil _)
    · exact ⟨j, hj, by
        simpa using gearExcValue_descr env shipMst capOvI (0 + j) gearId w hval2⟩

theorem ships_decompose (ships : List Int) (i : Nat) (sid : Int)
    (hget : ships.get? i = some sid) :
    ships = ships.take i ++ sid :: ships.drop (i + 1) := by
  obtain ⟨hlt, hgeteq⟩ := List.get?_eq_some.mp hget
  conv_lhs => rw [← List.take_append_drop i ships]
  congr 1
  rw [List.drop_eq_get_cons hlt, hgeteq]

theorem nodup_split_not_mem (xs ys : List Int) (a : Int)
    (h : (xs ++ a :: ys).Nodup) : a ∉ xs ∧ a ∉ ys := by
  have h2 := List.nodup_middle.mp h
  have h3 := List.nodup_cons.mp h2
  exact ⟨fun hx => h3.1 (List.mem_append.mpr (Or.inl hx)),
    fun hy => h3.1 (List.mem_append.mpr (Or.inr hy))⟩

/-- C7: with pairwise-distinct positive ship IDs, the exception map of
the full result is exact: (soundness) every entry belongs to a ship
actually in the fleet and its value is a genuine failure description
(`null` only for missing ship master; an empty nested map only for an
unresolvable slot layout; nested entries only for per-gear failures with
the prescribed `null` / stat / `"recon"` values); (completeness) every
failure of a processed ship leaves exactly its prescribed entry, and a
ship whose data fully resolves leaves no entry at all. -/
theorem c7_exceptionMap_exact (env : MasterData) (ships : List Int)
    (ovS : Option (List (Option (List Int)))) (ovC : Option (List (Option (List Nat))))
    (hnd : (positiveIds ships).Nodup) :
    (∀ sid e,
       jsGet (enemyFighterPowerState env ships ovS ovC).exceptions sid = some e →
       ∃ i, ships.get? i = some sid ∧ sid > 0 ∧
         shipExcSound env (ovAt ovS i) (ovAt ovC i) sid e)
    ∧ (∀ i sid, ships.get? i = some sid → sid > 0 →
       shipExcComplete env (ovAt ovS i) (ovAt ovC i) sid
         (enemyFighterPowerState env ships ovS ovC).exceptions) := by
  have hkey : ∀ i sid, ships.get? i = some sid → sid > 0 →
      jsGet (enemyFighterPowerState env ships ovS ovC).exceptions sid =
        shipExcOf env (ovAt ovS i) (ovAt ovC i) sid := by
    intro i sid hget hsid
    have hdec := ships_decompose ships i sid hget
    have hlen : (ships.take i).length = i := by
      obtain ⟨hlt, _⟩ := List.get?_eq_some.mp hget
      simp [List.length_take]
      omega
    have hsplit : positiveIds ships =
        positiveIds (ships.take i) ++ sid :: positiveIds (ships.drop (i + 1)) := by
      conv_lhs => rw [hdec]
      rw [positiveIds_append, positiveIds_cons_pos _ _ hsid]
    obtain ⟨hpre, hpost⟩ := nodup_split_not_mem _ _ _ (hsplit ▸ hnd)
    unfold enemyFighterPowerState
    conv_lhs => rw [hdec]
    rw [processShips_exceptions_unique env ovS ovC _ _ sid 0 initState hpre hpost hsid rfl,
      hlen, Nat.zero_add]
  constructor
  · intro sid e he
    have hmem : sid ∈ positiveIds ships := by
      by_contra hnot
      unfold enemyFighterPowerState at he
      rw [processShips_exceptions_not_mem _ _ _ _ _ _ _ hnot] at he
      exact absurd he (by simp [jsGet, initState])
    obtain ⟨hin, hpos⟩ := (mem_positiveIds _ _).mp hmem
    obtain ⟨i, hi⟩ := List.mem_iff_get?.mp hin
    refine ⟨i, hi, hpos, ?_⟩
    have hk := hkey i sid hi hpos
    rw [he] at hk
    exact shipExcOf_sound env _ _ sid e hk.symm
  · intro i sid hget hsid
    exact shipExcOf_complete env _ _ sid _ hsid (hkey i sid hget hsid)

/-- C7 witness: on `env4` with ships `[1]` and a present-but-empty
capacity override, the completeness half instantiated at ship 1 (whose
gear 7 has unresolvable capacity). -/
theorem c7_witness :
    (positiveIds [1]).Nodup ∧
    shipExcComplete env4 (ovAt none 0) (ovAt (some [some []]) 0) 1
      (enemyFighterPowerState env4 [1] none (some [some []])).exceptions :=
  ⟨by decide,
    (c7_exceptionMap_exact env4 [1] none (some [some []]) (by decide)).2 0 1 rfl
      (by decide)⟩

theorem combineTotals_id (a : Option Nat × Nat × Nat × Nat) :
    combineTotals a (none, 0, 0, 0) = a := by
  obtain ⟨a1, a2, a3, a4⟩ := a
  simp [combineTotals, optAdd]

theorem combineTotals_assoc (a b c : Option Nat × Nat × Nat × Nat) :
    combineTotals (combineTotals a b) c = combineTotals a (combineTotals b c) := by
  obtain ⟨a1, a2, a3, a4⟩ := a
  obtain ⟨b1, b2, b3, b4⟩ := b
  obtain ⟨c1, c2, c3, c4⟩ := c
  simp only [combineTotals, Prod.mk.injEq]
  refine ⟨?_, by omega, by omega, by omega⟩
  cases b1 <;> cases c1 <;> simp [optAdd] <;> omega

theorem combineTotals_right_comm (a b c : Option Nat × Nat × Nat × Nat) :
    combineTotals (combineTotals a b) c = combineTotals (combineTotals a c) b := by
  obtain ⟨a1, a2, a3, a4⟩ := a
  obtain ⟨b1, b2, b3, b4⟩ := b
  obtain ⟨c1, c2, c3, c4⟩ := c
  simp only [combineTotals, Prod.mk.injEq]
  refine ⟨?_, by omega, by omega, by omega⟩
  cases b1 <;> cases c1 <;> simp [optAdd] <;> omega

theorem processGear_totals (env : MasterData) (shipId : Int) (shipMst : ShipMaster)
    (capOvI : Option (List Nat)) (slotIdx : Nat) (gearId : Int)
    (st : FighterPowerState) :
    stateTotals (processGear env shipId shipMst capOvI slotIdx gearId st) =
      combineTotals (stateTotals st)
        (stateTotals (processGear env shipId shipMst capOvI slotIdx gearId initState)) := by
  unfold processGear
  cases hg : env.slotitem gearId with
  | none => simp [stateTotals, combineTotals, optAdd, initState]
  | some gearMst =>
      by_cases ht : env.antiAirFighterType2Ids.contains gearMst.api_type2 = true
      · simp only [if_pos ht]
        cases hc : resolveCapacity capOvI shipMst.api_maxeq slotIdx with
        | some c =>
            by_cases hs : gearMst.api_tyku.getD 0 > 0 <;>
              simp [hs, stateTotals, combineTotals, optAdd, initState]
        | none => simp [stateTotals, combineTotals, optAdd, initState]
      · simp only [if_neg ht]
        by_cases h7 : gearMst.api_type1 = 7
        · simp only [if_pos h7]
          cases hc : resolveCapacity capOvI shipMst.api_maxeq slotIdx with
          | some c => simp [stateTotals, combineTotals, optAdd, initState]
          | none => simp [stateTotals, combineTotals, optAdd, initState]
        · simp only [if_neg h7]
          simp [stateTotals, combineTotals, optAdd, initState]

theorem processSlots_totals (env : MasterData) (shipId : Int) (shipMst : ShipMaster)
    (capOvI : Option (List Nat)) (gl : List Int) (j : Nat) (st : FighterPowerState) :
    stateTotals (processSlots env shipId shipMst capOvI gl j st) =
      combineTotals (stateTotals st)
        (stateTotals (processSlots env shipId shipMst capOvI gl j initState)) := by
  induction gl generalizing j st with
  | nil =>
      simp only [processSlots]
      rw [show stateTotals initState = (none, 0, 0, 0) from rfl, combineTotals_id]
  | cons g rest ih =>
      simp only [processSlots]
      rw [ih (j + 1) (processGear env shipId shipMst capOvI j g st),
        ih (j + 1) (processGear env shipId shipMst capOvI j g initState),
        processGear_totals env shipId shipMst capOvI j g st,
        combineTotals_assoc]

theorem processShip_totals (env : MasterData) (slotOvI : Option (List Int))
    (capOvI : Option (List Nat)) (shipId : Int) (st : FighterPowerState) :
    stateTotals (processShip env slotOvI capOvI shipId st) =
      combineTotals (stateTotals st)
        (stateTotals (processShip env slotOvI capOvI shipId initState)) := by
  by_cases hguard : shipId = 0 ∨ shipId < 0
  · rw [processShip_skip _ _ _ _ _ hguard, processShip_skip _ _ _ _ _ hguard,
      show stateTotals initState = (none, 0, 0, 0) from rfl, combineTotals_id]
  · cases hm : shipMasterLookup env shipId with
    | none =>
        rw [processShip_noMaster _ _ _ _ _ hguard hm,
          processShip_noMaster _ _ _ _ _ hguard hm]
        simp [stateTotals, combineTotals, optAdd, initState]
    | some shipMst =>
        cases hsl : slotsResolved slotOvI shipMst with
        | none =>
            rw [processShip_noSlots _ _ _ _ _ _ hguard hm hsl,
              processShip_noSlots _ _ _ _ _ _ hguard hm hsl]
            simp [stateTotals, combineTotals, optAdd, initState]
        | some slots =>
            rw [processShip_slots _ _ _ _ _ _ _ hguard hm hsl,
              processShip_slots _ _ _ _ _ _ _ hguard hm hsl]
            exact processSlots_totals _ _ _ _ _ _ _

theorem processTriples_totals (env : MasterData) (l : List ShipTriple)
    (st : FighterPowerState) :
    stateTotals (processTriples env l st) =
      List.foldl (fun a t => combineTotals a (tripleDelta env t)) (stateTotals st) l := by
  induction l generalizing st with
  | nil => rfl
  | cons t rest ih =>
      simp only [processTriples, List.foldl_cons]
      rw [ih, processShip_totals]
      rfl

theorem processShips_eq_triples (env : MasterData) (l pre : List ShipTriple)
    (st : FighterPowerState) :
    processShips env (some ((pre ++ l).map (fun t => t.2.1)))
      (some ((pre ++ l).map (fun t => t.2.2)))
      (l.map (fun t => t.1)) pre.length st = processTriples env l st := by
  induction l generalizing pre st with
  | nil => rfl
  | cons t rest ih =>
      simp only [List.map_cons, processShips, processTriples]
      have hat1 : ovAt (some ((pre ++ t :: rest).map (fun t => t.2.1))) pre.length =
          t.2.1 := by
        unfold ovAt
        rw [Option.getD_some, List.get?_map,
          List.get?_append_right (Nat.le_refl _), Nat.sub_self, List.get?_cons_zero]
        rfl
      have hat2 : ovAt (some ((pre ++ t :: rest).map (fun t => t.2.2))) pre.length =
          t.2.2 := by
        unfold ovAt
        rw [Option.getD_some, List.get?_map,
          List.get?_append_right (Nat.le_refl _), Nat.sub_self, List.get?_cons_zero]
        rfl
      rw [hat1, hat2]
      have happ : pre ++ t :: rest = (pre ++ [t]) ++ rest := by simp
      have hlen : pre.length + 1 = (pre ++ [t]).length := by simp
      rw [happ, hlen]
      exact ih (pre ++ [t]) _

theorem enemyFighterPowerTriples_eq (env : MasterData) (l : List ShipTriple) :
    enemyFighterPowerTriples env l =
      EFPResult.full (processTriples env l initState) :=
  congrArg EFPResult.full (by simpa using processShips_eq_triples env l [] initState)

theorem foldl_perm_of_comm {α β : Type} (f : β → α → β)
    (hcomm : ∀ b a1 a2, f (f b a1) a2 = f (f b a2) a1)
    {l1 l2 : List α} (h : l1.Perm l2) : ∀ b, l1.foldl f b = l2.foldl f b := by
  induction h with
  | nil => intro b; rfl
  | cons x h ih =>
      intro b
      simp only [List.foldl_cons]
      exact ih _
  | swap x y l =>
      intro b
      simp only [List.foldl_cons]
      rw [hcomm]
  | trans h1 h2 ih1 ih2 =>
      intro b
      exact (ih1 b).trans (ih2 b)

/-- C8: for a present fleet given as a list of
(ship, slot-override, capacity-override) triples, permuting the triples
(i.e. permuting the ship index order together with the parallel
permutation of the two override arrays) leaves the four numeric totals
of the result unchanged. -/
theorem c8_perm_invariant (env : MasterData) (l1 l2 : List ShipTriple)
    (hp : l1.Perm l2) :
    resultTotals (enemyFighterPowerTriples env l1) =
      resultTotals (enemyFighterPowerTriples env l2) := by
  rw [enemyFighterPowerTriples_eq, enemyFighterPowerTriples_eq]
  show stateTotals (processTriples env l1 initState) =
    stateTotals (processTriples env l2 initState)
  rw [processTriples_totals, processTriples_totals]
  exact foldl_perm_of_comm _
    (fun b a1 a2 => combineTotals_right_comm b (tripleDelta env a1) (tripleDelta env a2))
    hp _

/-- C8 witness: swapping the two ships (known ship 1 of `env3` and
unknown ship 2) leaves the numeric totals unchanged. -/
theorem c8_witness :
    (([(1, none, none), (2, none, none)] : List ShipTriple).Perm
      [(2, none, none), (1, none, none)]) ∧
    resultTotals (enemyFighterPowerTriples env3 [(1, none, none), (2, none, none)]) =
      resultTotals (enemyFighterPowerTriples env3 [(2, none, none), (1, none, none)]) :=
  ⟨List.Perm.swap _ _ _, c8_perm_invariant env3 _ _ (List.Perm.swap _ _ _)⟩

/-- C10 witness: gear 7 of `env10` has `api_type1 = 7` and
anti-air-fighter `api_type2 = 6`; with no resolvable capacity it records
the stat 3 (not the recon marker) and leaves `reconCapacity` at 0. -/
theorem c10_witness :
    (processGear env10 1 mst10 none 0 7 initState).reconCapacity =
      initState.reconCapacity ∧
    processGear env10 1 mst10 none 0 7 initState =
      { initState with exceptions := [(1, ShipExc.gearMap [(7, GearExc.aaStat 3)])] } := by
  have h := c10_antiAir_precedence env10 1 mst10 none 0 7 initState gm10 rfl
    (by decide) rfl
  refine ⟨h.1, ?_⟩
  rw [h.2 rfl]
  rfl

end KC3Calc
